import Mathlib

/-!
Verification development for the panorama repository traversal and
content-selection pipeline (`collect.py`).

The definitions below are a shallow embedding of the Python source:
pure helpers become Lean functions; filesystem interaction is made
explicit through an `Env` structure (a map from paths to directory
listings and file-read outcomes); Python exceptions that can escape a
function become `Except` results.  Every definition is translated from
the source file, not from the specification's words; the one exception,
`specShouldInclude`, deliberately re-states the specification's ordered
inclusion rules so that it can be compared against the source's
`_should_include_file`.
-/

namespace Panorama

/-! ### Path helpers

Python's `pathlib.PurePath.name` and `PurePath.suffix`, modelled on
strings.  `name` is the component after the last separator; `suffix`
is the part of `name` from its last dot, provided that dot is neither
the first nor the last character of `name` (CPython's exact rule). -/

/-- String prefix test on the underlying character lists (the meaning
of Python's `str.startswith`). -/
def strStartsWith (s pat : String) : Bool :=
  pat.toList.isPrefixOf s.toList

/-- The final path component: the part of the string after the last `/`
(the whole string when no `/` occurs), as `PurePath.name` computes it
for the paths the collector builds. -/
def pathName (p : String) : String :=
  String.mk (p.toList.foldl (fun acc c => if c == '/' then [] else acc ++ [c]) [])

/-- Index of the last occurrence of `.` in a character list, if any. -/
def lastDotIdx : List Char → Option Nat
  | [] => none
  | c :: cs =>
    match lastDotIdx cs with
    | some i => some (i + 1)
    | none => if c == '.' then some 0 else none

/-- CPython `PurePath.suffix`: with `n` the final component and `i` the
index of its last dot, the suffix is `n[i:]` when `0 < i < len n - 1`,
and the empty string otherwise. -/
def pathSuffix (p : String) : String :=
  let n := (pathName p).toList
  match lastDotIdx n with
  | some i => if 0 < i ∧ i < n.length - 1 then String.mk (n.drop i) else ""
  | none => ""

/-- Joining a repository root with a relative file path, as
`repo_path / doc_file` produces for relative operands. -/
def joinPath (root rel : String) : String :=
  root ++ "/" ++ rel

/-- Whether `pat` occurs (contiguously) somewhere in `s`: Python's
substring test `pat in s`, checked at every position of `s`. -/
def containsSubList (s pat : List Char) : Bool :=
  match s with
  | [] => pat.isEmpty
  | _ :: rest => pat.isPrefixOf s || containsSubList rest pat

/-- Python's substring test `pat in s` on strings. -/
def containsSub (s pat : String) : Bool :=
  containsSubList s.toList pat.toList

/-- Whitespace characters stripped by Python's `str.strip()` (the ASCII
ones; the source only ever meets text files). -/
def pyIsSpace (c : Char) : Bool :=
  c == ' ' || c == '\t' || c == '\n' || c == '\x0d' || c == '\x0b' || c == '\x0c'

/-- Python's `not content.strip()`: true when every character is
whitespace (in particular for the empty string). -/
def pyStripIsEmpty (s : String) : Bool :=
  s.toList.all pyIsSpace

/-- The key humanization `key.replace('_', ' ')`: a single-character
replacement, so a character map. -/
def replaceUnderscores (s : String) : String :=
  String.mk (s.toList.map (fun c => if c == '_' then ' ' else c))

/-- Python's `str.title()`: an alphabetic character is uppercased when
the previous character is not alphabetic and lowercased otherwise;
other characters pass through and reset the word boundary. -/
def pyTitle (s : String) : String :=
  String.mk (s.toList.foldl
    (fun acc c =>
      if c.isAlpha then
        (acc.1 ++ [if acc.2 then c.toLower else c.toUpper], true)
      else
        (acc.1 ++ [c], false))
    (([] : List Char), false)).1

/-! ### Content Reader (`_read_file_content`)

The outcome of attempting to open and decode one file is environment
data; `readFileContent` is the function the source wraps around it.
The Python function catches every exception and returns `None`, so its
embedding is total: `none` is the absent signal. -/

/-- What the filesystem yields when one path is opened and decoded:
the file is missing, it decodes to `content`, decoding fails
(`UnicodeDecodeError`), or some other I/O error is raised. -/
inductive FileReadOutcome where
  | notFound
  | ok (content : String)
  | undecodable
  | ioError
deriving DecidableEq

/-- `_read_file_content`: `none` for a missing file, for content that
strips to nothing, for an undecodable file and for any other I/O error;
`some content` otherwise.  Total, because the source catches every
exception inside this function. -/
def readFileContent : FileReadOutcome → Option String
  | .notFound => none
  | .ok content => if pyStripIsEmpty content then none else some content
  | .undecodable => none
  | .ioError => none

/-! ### Inclusion Policy (`_should_include_file`) -/

/-- `_should_include_file`, translated clause by clause from the source:
documentation-prefixed categories are always admitted, `config` admits
the config suffixes, `data` with `schema` in the path is admitted,
`examples` admits the documentation suffixes, `code` and `tests` are
rejected, and every other category admits the documentation suffixes. -/
def shouldIncludeFile (filePath category : String) : Bool :=
  if strStartsWith category "documentation" then true
  else if category == "config" then
    [".yaml", ".yml", ".json", ".txt"].contains (pathSuffix filePath)
  else if category == "data" && containsSub filePath "schema" then true
  else if category == "examples" then
    [".md", ".yaml", ".yml", ".json", ".txt"].contains (pathSuffix filePath)
  else if category == "code" || category == "tests" then false
  else
    [".md", ".yaml", ".yml", ".json", ".txt"].contains (pathSuffix filePath)

/-- Modelled from the spec: the six ordered inclusion rules of §4.2,
first match wins, written independently of the source so the two can
be compared.  Rule 1: a label starting with "documentation" is admitted
unconditionally.  Rule 2: "config" admits suffixes yaml/yml/json/txt.
Rule 3: "data" with the substring "schema" anywhere in the path is
admitted.  Rule 4: "examples" admits suffixes md/yaml/yml/json/txt.
Rule 5: "code" and "tests" are rejected unconditionally.  Rule 6: any
other label admits suffixes md/yaml/yml/json/txt. -/
def specShouldInclude (filePath category : String) : Bool :=
  if strStartsWith category "documentation" then true
  else if category == "config" then
    [".yaml", ".yml", ".json", ".txt"].contains (pathSuffix filePath)
  else if category == "data" && containsSub filePath "schema" then true
  else if category == "examples" then
    [".md", ".yaml", ".yml", ".json", ".txt"].contains (pathSuffix filePath)
  else if category == "code" || category == "tests" then false
  else
    [".md", ".yaml", ".yml", ".json", ".txt"].contains (pathSuffix filePath)

/-! ### Tree Renderer (`_get_folder_structure`)

A directory listing is environment data: each entry is a file or a
directory; a directory carries an `accessible` flag (whether iterating
its children raises `PermissionError`).  Entries that are neither
regular files nor directories render nothing in the source and are
omitted from the model.  The icon strings follow the repository's own
test suite (`test_collect.py` pins `📁`/`📄`); the published source
file's icon bytes are encoding-damaged but the claims never depend on
the glyphs. -/

/-- One entry of a directory listing, as `Path.iterdir` yields it. -/
inductive Entry where
  | file (name : String)
  | dir (name : String) (children : List Entry) (accessible : Bool)

/-- The entry's final path component. -/
def entryName : Entry → String
  | .file n => n
  | .dir n _ _ => n

/-- The pruning test of `_get_folder_structure`: a name starting with a
dot, or one of the fixed build-artifact names. -/
def hiddenName (n : String) : Bool :=
  strStartsWith n "." ||
    ["__pycache__", "node_modules", ".git", "build", "dist"].contains n

/-- Lexicographic code-point order on character lists: how Python
compares the sibling path strings that `sorted` orders. -/
def charListLt : List Char → List Char → Bool
  | [], [] => false
  | [], _ :: _ => true
  | _ :: _, [] => false
  | a :: as, b :: bs => if a < b then true else if b < a then false else charListLt as bs

/-- Lexicographic order on strings, via their character lists. -/
def strLt (a b : String) : Bool :=
  charListLt a.toList b.toList

/-- Stable insertion into a name-sorted list: the new entry goes in
front of the first entry whose name is not smaller. -/
def insertByName (e : Entry) : List Entry → List Entry
  | [] => [e]
  | x :: xs =>
    if strLt (entryName x) (entryName e) then x :: insertByName e xs else e :: x :: xs

/-- `sorted(path.iterdir())`: sibling paths share their parent, so
sorting the paths is sorting the entry names (stably, ascending). -/
def sortByName (l : List Entry) : List Entry :=
  l.foldr insertByName []

/-- The file suffixes the tree shows (`# Only show important file types`). -/
def treeSuffixes : List String :=
  [".md", ".yaml", ".yml", ".json", ".txt", ".py", ".sh", ".zsh"]

/-- `add_to_structure`, the inner recursive walker.  `fuel` is a
structural bound on the recursion depth; the walker itself already
stops as soon as `depth > maxDepth`, and callers pass `fuel = maxDepth
+ 1` so that the fuel can run out only at depths the walker prunes
anyway (`addToStructure_fuel` below proves the bound irrelevant).  The
clause order follows the source: depth test, hidden-name test, then the
directory and file branches.  An inaccessible directory still renders
its own line, followed by the permission-denied marker. -/
def addToStructure (maxDepth : Nat) : Nat → Entry → Nat → String → List String
  | 0, _, _, _ => []
  | fuel + 1, e, depth, pre =>
    if depth > maxDepth then []
    else if hiddenName (entryName e) then []
    else
      match e with
      | .dir n children accessible =>
        (pre ++ "📁 " ++ n ++ "/") ::
          (if accessible then
            ((sortByName children).map
              (fun c => addToStructure maxDepth fuel c (depth + 1) (pre ++ "  "))).flatten
          else
            [pre ++ "  🔒 (permission denied)"])
      | .file n =>
        if treeSuffixes.contains (pathSuffix n) then [pre ++ "📄 " ++ n] else []

/-- What iterating the root directory itself yields: a listing, a
`PermissionError`, or a `FileNotFoundError` (root does not exist). -/
inductive Root where
  | ok (children : List Entry)
  | denied
  | missing

/-- Whether the root listing raises `FileNotFoundError`. -/
def rootMissing : Root → Bool
  | .missing => true
  | _ => false

/-- The lines collected for an accessible root: each sorted top-level
entry is walked from depth 0 with an empty line prefix. -/
def structureLines (maxDepth : Nat) (children : List Entry) : List String :=
  ((sortByName children).map
    (fun c => addToStructure maxDepth (maxDepth + 1) c 0 "")).flatten

/-- Python's `"\n".join`. -/
def joinLines : List String → String
  | [] => ""
  | [l] => l
  | l :: ls => l ++ "\n" ++ joinLines ls

/-- `_get_folder_structure`.  A missing root raises `FileNotFoundError`
past the function (its `try` only catches `PermissionError`), modelled
as `Except.error` carrying CPython's message.  A permission-denied root
yields the single marker line.  Otherwise the walked lines are joined,
with the literal fallback when no line was collected. -/
def getFolderStructure (repoPath : String) (root : Root) (maxDepth : Nat) :
    Except String String :=
  match root with
  | .missing =>
    Except.error ("[Errno 2] No such file or directory: '" ++ repoPath ++ "'")
  | .denied => Except.ok "🔒 (permission denied)"
  | .ok children =>
    let lines := structureLines maxDepth children
    Except.ok (if lines.isEmpty then "No accessible files" else joinLines lines)

/-! ### Section Formatter (`_format_file_section`) -/

/-- Python's `str.lower()`, character by character. -/
def strToLower (s : String) : String :=
  String.mk (s.toList.map Char.toLower)

/-- The fixed display-language mapping of `_format_file_section`
(`lang_map.get(extension, 'text')`). -/
def langFor (extension : String) : String :=
  if extension == ".md" then "markdown"
  else if extension == ".yaml" then "yaml"
  else if extension == ".yml" then "yaml"
  else if extension == ".json" then "json"
  else if extension == ".txt" then "text"
  else "text"

/-- `_format_file_section`: heading with the file's base name, the full
path and category metadata lines, then the raw content fenced and
tagged with the display language of the lower-cased suffix. -/
def formatFileSection (filePath content category : String) : String :=
  "\n### " ++ pathName filePath ++ "\n\n" ++
    "**Path:** `" ++ filePath ++ "`\n" ++
    "**Category:** " ++ category ++ "\n\n" ++
    "```" ++ langFor (strToLower (pathSuffix filePath)) ++ "\n" ++ content ++ "\n```\n"

/-! ### Repository descriptor and environment

A manifest entry, as the YAML loader materializes it.  Every field the
source ever looks up is a Lean field; `none` models an absent key.
`name` and `path` are optional here precisely because the source
accesses them with `repo_config['name']` / `repo_config['path']`, which
raise `KeyError` when the key is absent. -/

/-- A documentation group value: one relative path or a list of them
(`isinstance(doc_files, list)`). -/
inductive DocFiles where
  | single (f : String)
  | many (fs : List String)

/-- One repository descriptor of the manifest. -/
structure RepoConfig where
  name : Option String
  path : Option String
  description : Option String
  remotes : Option (List (String × String))
  type : Option String
  integration_quality : Option (List (String × String))
  documentation : Option (List (String × DocFiles))
  context_files : Option (List (String × List String))

/-- The ambient filesystem and process state the collector consults:
`expand` is `_expand_path` (home-directory expansion plus resolution,
an OS mapping), `rootAt` the directory listing at a resolved path,
`fileAt` the read outcome at a full file path, `cwd` the working
directory printed in the header, `source` the manifest path. -/
structure Env where
  expand : String → String
  rootAt : String → Root
  fileAt : String → FileReadOutcome
  cwd : String
  source : String

/-- Concatenation of rendered fragments, in order (the `section += …`
accumulation loop). -/
def strConcat : List String → String
  | [] => ""
  | s :: rest => s ++ strConcat rest

/-- The 80-character `=` banner. -/
def eqBanner : String :=
  String.mk (List.replicate 80 '=')

/-! ### Repository Aggregator (`_collect_repo_files`) -/

/-- The identity banner: delimiters, `# name`, and the description line
(with the fixed placeholder already substituted by the caller). -/
def bannerText (repoName description : String) : String :=
  "\n" ++ eqBanner ++ "\n" ++ "# " ++ repoName ++ "\n" ++ eqBanner ++ "\n\n" ++
    "**Description:** " ++ description ++ "\n\n"

/-- The remotes block: one `- name: url` line per remote, nothing when
the key is absent. -/
def remotesText (cfg : RepoConfig) : String :=
  match cfg.remotes with
  | none => ""
  | some rs =>
    "**Remotes:**\n" ++
      strConcat (rs.map (fun r => "- " ++ r.1 ++ ": " ++ r.2 ++ "\n")) ++ "\n"

/-- The type line, nothing when the key is absent. -/
def typeText (cfg : RepoConfig) : String :=
  match cfg.type with
  | none => ""
  | some t => "**Type:** " ++ t ++ "\n\n"

/-- The integration-quality block: every metric except `notes`, keys
humanized (underscores to spaces, title case), then the `notes` entry
last when present. -/
def iqText (cfg : RepoConfig) : String :=
  match cfg.integration_quality with
  | none => ""
  | some iq =>
    "**Integration Quality:**\n" ++
      strConcat (iq.map (fun kv =>
        if kv.1 == "notes" then ""
        else "- " ++ pyTitle (replaceUnderscores kv.1) ++ ": " ++ kv.2 ++ "\n")) ++
      (match iq.lookup "notes" with
       | some v => "- Notes: " ++ v ++ "\n"
       | none => "") ++ "\n"

/-- One documentation file: read it, and format it under the
`documentation/`-prefixed category when content was obtained. -/
def docFileText (env : Env) (repoPath category f : String) : String :=
  match readFileContent (env.fileAt (joinPath repoPath f)) with
  | some content =>
    formatFileSection (joinPath repoPath f) content ("documentation/" ++ category)
  | none => ""

/-- One documentation group: a list value is iterated, a single value
is read once. -/
def docPairText (env : Env) (repoPath : String) (pair : String × DocFiles) : String :=
  match pair.2 with
  | .many fs => strConcat (fs.map (docFileText env repoPath pair.1))
  | .single f => docFileText env repoPath pair.1 f

/-- The documentation section, nothing when the key is absent. -/
def docsText (env : Env) (repoPath : String) (cfg : RepoConfig) : String :=
  match cfg.documentation with
  | none => ""
  | some m => "## Documentation\n\n" ++ strConcat (m.map (docPairText env repoPath))

/-- One context file: the Inclusion Policy gates the read; a skipped or
unread file contributes nothing. -/
def contextFileText (env : Env) (repoPath category f : String) : String :=
  if shouldIncludeFile (joinPath repoPath f) category then
    match readFileContent (env.fileAt (joinPath repoPath f)) with
    | some content => formatFileSection (joinPath repoPath f) content category
    | none => ""
  else ""

/-- One context-file group: the categories `code` and `tests` are
skipped whole (not even a subheading); any other category emits its
title-cased subheading before its files are filtered and read. -/
def contextPairText (env : Env) (repoPath : String) (pair : String × List String) : String :=
  if pair.1 == "code" || pair.1 == "tests" then ""
  else
    "### " ++ pyTitle pair.1 ++ "\n\n" ++
      strConcat (pair.2.map (contextFileText env repoPath pair.1))

/-- The context-files section, nothing when the key is absent. -/
def contextText (env : Env) (repoPath : String) (cfg : RepoConfig) : String :=
  match cfg.context_files with
  | none => ""
  | some m =>
    "## Key Configuration Files\n\n" ++ strConcat (m.map (contextPairText env repoPath))

/-- `_collect_repo_files`.  The two mandatory-key lookups come first
and raise `KeyError` (modelled as `Except.error` with CPython's
`str(KeyError)`, the quoted key) when a key is absent; the structure
step then re-raises whatever `_get_folder_structure` raises for a
missing root.  Everything after that is pure accumulation. -/
def collectRepoFiles (env : Env) (cfg : RepoConfig) : Except String String :=
  match cfg.name with
  | none => Except.error "'name'"
  | some repoName =>
    match cfg.path with
    | none => Except.error "'path'"
    | some rawPath =>
      match getFolderStructure (env.expand rawPath) (env.rootAt (env.expand rawPath)) 3 with
      | Except.error e => Except.error e
      | Except.ok structureText =>
        Except.ok
          (bannerText repoName (cfg.description.getD "No description provided") ++
            remotesText cfg ++ typeText cfg ++ iqText cfg ++
            "## Repository Structure\n\n```\n" ++ structureText ++ "\n```\n\n" ++
            docsText env (env.expand rawPath) cfg ++ contextText env (env.expand rawPath) cfg)

/-! ### Collection Orchestrator (`collect_all`) and output writer -/

/-- The inline error block substituted for a repository whose
aggregation raised: `repo_config.get('name', 'unknown')` plus the
error detail. -/
def errorBlockText (cfg : RepoConfig) (e : String) : String :=
  "\n## Error Processing Repository\n\n" ++
    "Repository: " ++ cfg.name.getD "unknown" ++ "\n" ++
    "Error: " ++ e ++ "\n\n"

/-- What one manifest entry contributes to the document: the aggregated
section, or the inline error block when aggregation raised. -/
def entryText (env : Env) (cfg : RepoConfig) : String :=
  match collectRepoFiles env cfg with
  | Except.ok s => s
  | Except.error e => errorBlockText cfg e

/-- The fixed document header, including the generation context, the
manifest source and the repository count. -/
def headerText (env : Env) (repoCount : Nat) : String :=
  "# Foundry Ecosystem - Panorama Context\n\n" ++
    "This document aggregates high-level documentation and repository structure " ++
    "from all repositories in the foundry ecosystem. It serves as a concise reference " ++
    "for AI agents, onboarding tools, and internal dashboards.\n\n" ++
    "Generated on: " ++ env.cwd ++ "\n" ++
    "Source: " ++ env.source ++ "\n\n" ++
    "Total repositories: " ++ toString repoCount ++ "\n\n" ++
    "**Note:** This context focuses on documentation and structure only. " ++
    "Code implementation details are excluded for conciseness.\n\n"

/-- The fixed footer banner. -/
def footerText : String :=
  "\n" ++ eqBanner ++ "\n" ++ "# End of Panorama Context\n" ++ eqBanner ++ "\n"

/-- `collect_all`: header, then each descriptor's contribution appended
in manifest order (per-entry failures isolated into inline error
blocks), then the footer. -/
def collect_all (env : Env) (repos : List RepoConfig) : String :=
  (repos.foldl (fun acc cfg => acc ++ entryText env cfg) (headerText env repos.length)) ++
    footerText

/-- `write_output`: the artifact name is chosen by the format selector
(`md` or `json`), the written bytes are the document content in both
modes; any other selector raises `ValueError`.  The result pairs the
artifact path with the written content. -/
def write_output (outputDir content fmt : String) : Except String (String × String) :=
  if fmt == "md" then Except.ok (outputDir ++ "/context.md", content)
  else if fmt == "json" then Except.ok (outputDir ++ "/context.json", content)
  else Except.error ("Unsupported output format: " ++ fmt)

/-! ### Supporting lemmas -/

/-- A string of positive length is not the empty string. -/
theorem ne_empty_of_length_pos {s : String} (h : 0 < s.length) : s ≠ "" := by
  intro he
  rw [he] at h
  exact absurd h (by decide)

/-- `strConcat` distributes over list concatenation. -/
theorem strConcat_append (a b : List String) :
    strConcat (a ++ b) = strConcat a ++ strConcat b := by
  induction a with
  | nil => simp [strConcat]
  | cons x xs ih => simp [strConcat, ih, String.append_assoc]

/-- The accumulation loop `acc += f x` over a list equals the initial
accumulator followed by the concatenation of the pieces. -/
theorem foldl_append_eq_strConcat {α : Type} (f : α → String) (l : List α) (init : String) :
    l.foldl (fun acc x => acc ++ f x) init = init ++ strConcat (l.map f) := by
  induction l generalizing init with
  | nil => simp [strConcat]
  | cons x xs ih => simp [List.foldl_cons, ih, strConcat, String.append_assoc]

/-- `collect_all` is the header, the per-entry contributions in
manifest order, and the footer. -/
theorem collect_all_eq (env : Env) (repos : List RepoConfig) :
    collect_all env repos =
      headerText env repos.length ++ strConcat (repos.map (entryText env)) ++ footerText := by
  rw [collect_all, foldl_append_eq_strConcat]

/-- A member's piece can be split out of a concatenation. -/
theorem strConcat_mem_split {α : Type} (f : α → String) {l : List α} {x : α} (hx : x ∈ l) :
    ∃ a b, strConcat (l.map f) = a ++ f x ++ b := by
  induction l with
  | nil => cases hx
  | cons y ys ih =>
    rcases List.mem_cons.mp hx with h | h
    · exact ⟨"", strConcat (ys.map f), by rw [h]; simp [strConcat]⟩
    · obtain ⟨a, b, hab⟩ := ih h
      exact ⟨f y ++ a, b, by simp [strConcat, hab, String.append_assoc]⟩

/-- Membership is preserved by `insertByName`. -/
theorem mem_insertByName {e x : Entry} {l : List Entry} :
    x ∈ insertByName e l ↔ x = e ∨ x ∈ l := by
  induction l with
  | nil => simp [insertByName]
  | cons y ys ih =>
    rw [insertByName]
    split
    · simp only [List.mem_cons, ih]
      tauto
    · simp only [List.mem_cons]

/-- Membership is preserved by the sort. -/
theorem mem_sortByName {x : Entry} {l : List Entry} :
    x ∈ sortByName l ↔ x ∈ l := by
  induction l with
  | nil => simp [sortByName]
  | cons y ys ih =>
    rw [sortByName, List.foldr_cons]
    rw [show List.foldr insertByName [] ys = sortByName ys from rfl] at *
    rw [mem_insertByName, ih, List.mem_cons]

/-- Entries whose pieces are empty can be dropped from a flattened
map without changing the result. -/
theorem flatten_map_filter {α : Type} (f : α → List String) (p : α → Bool) :
    ∀ l : List α, (∀ x ∈ l, p x = false → f x = []) →
      (l.map f).flatten = ((l.filter p).map f).flatten := by
  intro l
  induction l with
  | nil => intro _; rfl
  | cons x xs ih =>
    intro h
    have hxs := ih (fun y hy => h y (List.mem_cons_of_mem _ hy))
    cases hp : p x with
    | true => simp [List.filter_cons, hp, hxs]
    | false => simp [List.filter_cons, hp, hxs, h x (List.mem_cons_self x xs) hp]

/-- A hidden or excluded entry renders nothing: the walker returns
before emitting its line and before recursing into it, at every depth
and with every prefix and fuel. -/
theorem addToStructure_hidden (maxDepth fuel : Nat) (e : Entry) (depth : Nat) (pre : String)
    (h : hiddenName (entryName e) = true) :
    addToStructure maxDepth fuel e depth pre = [] := by
  cases fuel with
  | zero => rfl
  | succ f =>
    simp only [addToStructure, h]
    simp

/-- Every line the walker emits is a non-empty string. -/
theorem addToStructure_line_ne_empty (maxDepth : Nat) :
    ∀ fuel e depth pre line, line ∈ addToStructure maxDepth fuel e depth pre → line ≠ "" := by
  intro fuel
  induction fuel with
  | zero =>
    intro e depth pre line h
    simp [addToStructure] at h
  | succ f ih =>
    intro e depth pre line h
    cases e with
    | dir n children accessible =>
      simp only [addToStructure] at h
      split at h
      · simp at h
      · split at h
        · simp at h
        · simp only [List.mem_cons] at h
          rcases h with h | h
          · subst h
            apply ne_empty_of_length_pos
            rw [String.length_append, String.length_append, String.length_append]
            have hs : 0 < ("/" : String).length := by decide
            omega
          · split at h
            · rw [List.mem_flatten] at h
              obtain ⟨lines, hl, hline⟩ := h
              rw [List.mem_map] at hl
              obtain ⟨c, _, hc⟩ := hl
              exact ih c (depth + 1) (pre ++ "  ") line (hc ▸ hline)
            · rw [List.mem_singleton] at h
              subst h
              apply ne_empty_of_length_pos
              rw [String.length_append]
              have hs : 0 < ("  🔒 (permission denied)" : String).length := by decide
              omega
    | file n =>
      simp only [addToStructure] at h
      split at h
      · simp at h
      · split at h
        · simp at h
        · split at h
          · rw [List.mem_singleton] at h
            subst h
            apply ne_empty_of_length_pos
            rw [String.length_append, String.length_append]
            have hs : 0 < ("📄 " : String).length := by decide
            omega
          · simp at h

/-- Joining a non-empty list of non-empty lines yields a non-empty
string. -/
theorem joinLines_ne_empty :
    ∀ l : List String, l ≠ [] → (∀ x ∈ l, x ≠ "") → joinLines l ≠ "" := by
  intro l
  match l with
  | [] => intro h; exact absurd rfl h
  | [x] =>
    intro _ hall
    simpa [joinLines] using hall x (by simp)
  | x :: y :: rest =>
    intro _ _
    apply ne_empty_of_length_pos
    have hj : joinLines (x :: y :: rest) = x ++ "\n" ++ joinLines (y :: rest) := rfl
    rw [hj, String.length_append, String.length_append]
    have : ("\n" : String).length = 1 := rfl
    omega

/-- A root whose listing does not raise `FileNotFoundError` always
yields a rendered structure. -/
theorem getFolderStructure_ok_of_not_missing (repoPath : String) (root : Root) (maxDepth : Nat)
    (h : rootMissing root = false) :
    ∃ s, getFolderStructure repoPath root maxDepth = Except.ok s := by
  cases root with
  | missing => simp [rootMissing] at h
  | denied => exact ⟨_, rfl⟩
  | ok children => exact ⟨_, rfl⟩

/-- The precondition under which one repository's aggregation cannot
raise: the two mandatory keys are present and listing the resolved
root does not raise `FileNotFoundError`. -/
def wellFormed (env : Env) (cfg : RepoConfig) : Prop :=
  ∃ n p, cfg.name = some n ∧ cfg.path = some p ∧
    rootMissing (env.rootAt (env.expand p)) = false

/-- A well-formed descriptor aggregates without raising. -/
theorem collectRepoFiles_ok_of_wellFormed (env : Env) (cfg : RepoConfig)
    (h : wellFormed env cfg) : ∃ s, collectRepoFiles env cfg = Except.ok s := by
  obtain ⟨n, p, hn, hp, hroot⟩ := h
  obtain ⟨t, ht⟩ := getFolderStructure_ok_of_not_missing (env.expand p)
    (env.rootAt (env.expand p)) 3 hroot
  rw [collectRepoFiles, hn, hp]
  simp only [ht]
  exact ⟨_, rfl⟩

/-- Every line of `structureLines` is non-empty. -/
theorem structureLines_ne_empty (maxDepth : Nat) (children : List Entry) :
    ∀ line ∈ structureLines maxDepth children, line ≠ "" := by
  intro line h
  rw [structureLines, List.mem_flatten] at h
  obtain ⟨lines, hl, hline⟩ := h
  rw [List.mem_map] at hl
  obtain ⟨c, _, hc⟩ := hl
  exact addToStructure_line_ne_empty maxDepth (maxDepth + 1) c 0 "" line (hc ▸ hline)

/-! ### Claims -/

/-- C3: for every path and category label, `_should_include_file` agrees
with the specification's ordered six-rule reference definition
(first match wins): the source evaluates the rules in exactly the
specified order, so the two functions coincide on all inputs. -/
theorem c3_policy_matches_spec :
    ∀ filePath category, shouldIncludeFile filePath category = specShouldInclude filePath category :=
  fun _ _ => rfl

/-- C5: the Content Reader never raises — it is a total function of the
read outcome — and it returns the absent signal `none` in all four
failure cases (missing path, whitespace-only content, undecodable
bytes, other I/O error) while returning the content itself whenever the
file decodes to text that does not strip to nothing. -/
theorem c5_reader_never_raises :
    readFileContent FileReadOutcome.notFound = none
    ∧ readFileContent FileReadOutcome.undecodable = none
    ∧ readFileContent FileReadOutcome.ioError = none
    ∧ (∀ content, pyStripIsEmpty content = true →
        readFileContent (FileReadOutcome.ok content) = none)
    ∧ (∀ content, pyStripIsEmpty content = false →
        readFileContent (FileReadOutcome.ok content) = some content) := by
  refine ⟨rfl, rfl, rfl, ?_, ?_⟩
  · intro c h
    simp [readFileContent, h]
  · intro c h
    simp [readFileContent, h]

/-- Witness for C5 at concrete inputs: a whitespace-only file is
absent, `"Hello"` comes back verbatim. -/
theorem c5_reader_never_raises_witness :
    (pyStripIsEmpty " \n" = true ∧ readFileContent (FileReadOutcome.ok " \n") = none)
    ∧ (pyStripIsEmpty "Hello" = false
        ∧ readFileContent (FileReadOutcome.ok "Hello") = some "Hello") :=
  ⟨⟨by decide, c5_reader_never_raises.2.2.2.1 " \n" (by decide)⟩,
   ⟨by decide, c5_reader_never_raises.2.2.2.2 "Hello" (by decide)⟩⟩

/-- C6: for a path whose suffix is `.md`, the Section Formatter tags
the fenced block `markdown` and the fenced body is byte-for-byte the
input content; determinism is inherent (the formatter is a pure
function of its three inputs), restated by the second conjunct. -/
theorem c6_markdown_roundtrip (p content category : String) (h : pathSuffix p = ".md") :
    formatFileSection p content category =
      ("\n### " ++ pathName p ++ "\n\n" ++ "**Path:** `" ++ p ++ "`\n" ++
        "**Category:** " ++ category ++ "\n\n") ++ "```markdown\n" ++ content ++ "\n```\n"
    ∧ formatFileSection p content category = formatFileSection p content category := by
  refine ⟨?_, rfl⟩
  rw [formatFileSection, h]
  have hl : langFor (strToLower ".md") = "markdown" := rfl
  rw [hl]
  simp [String.append_assoc]

/-- Witness for C6 at `docs/guide.md` with content `# Title`. -/
theorem c6_markdown_roundtrip_witness :
    pathSuffix "docs/guide.md" = ".md"
    ∧ formatFileSection "docs/guide.md" "# Title" "documentation" =
        "\n### guide.md\n\n**Path:** `docs/guide.md`\n**Category:** documentation\n\n```markdown\n# Title\n```\n" :=
  ⟨by decide,
   ((c6_markdown_roundtrip "docs/guide.md" "# Title" "documentation" (by decide)).1).trans (by decide)⟩

/-- C9: the structured (`json`) output mode writes document content
byte-identical to the textual (`md`) mode — the very same `content`
argument — and the two modes differ only in the artifact's name. -/
theorem c9_json_identical_to_md (outputDir content : String) :
    write_output outputDir content "md" = Except.ok (outputDir ++ "/context.md", content)
    ∧ write_output outputDir content "json" = Except.ok (outputDir ++ "/context.json", content)
    ∧ outputDir ++ "/context.md" ≠ outputDir ++ "/context.json" := by
  refine ⟨rfl, rfl, ?_⟩
  intro h
  have hd := congrArg String.data h
  simp only [String.data_append] at hd
  have hc := List.append_cancel_left hd
  exact absurd (String.ext hc) (by decide)

/-- Witness for C9 at a concrete output directory and document. -/
theorem c9_json_identical_to_md_witness :
    write_output "output" "doc" "md" = Except.ok ("output/context.md", "doc")
    ∧ write_output "output" "doc" "json" = Except.ok ("output/context.json", "doc")
    ∧ "output" ++ "/context.md" ≠ "output" ++ "/context.json" :=
  c9_json_identical_to_md "output" "doc"

/-- C7: a hidden or excluded entry (dot-prefixed name, or one of
`__pycache__`, `node_modules`, `.git`, `build`, `dist`) contributes no
line at any depth — it is neither rendered nor recursed into — and
consequently the collected lines for a root equal the lines collected
from its non-hidden entries only. -/
theorem c7_hidden_never_rendered :
    (∀ maxDepth fuel e depth pre, hiddenName (entryName e) = true →
        addToStructure maxDepth fuel e depth pre = [])
    ∧ (∀ maxDepth children,
        structureLines maxDepth children =
          (((sortByName children).filter (fun c => ! hiddenName (entryName c))).map
            (fun c => addToStructure maxDepth (maxDepth + 1) c 0 "")).flatten) := by
  refine ⟨fun m fuel e d pre h => addToStructure_hidden m fuel e d pre h, ?_⟩
  intro maxDepth children
  rw [structureLines]
  apply flatten_map_filter
  intro x _ hfalse
  apply addToStructure_hidden
  simpa using hfalse

/-- Witness for C7: a `node_modules` directory with a renderable file
inside renders nothing at all. -/
theorem c7_hidden_never_rendered_witness :
    hiddenName (entryName (Entry.dir "node_modules" [Entry.file "x.md"] true)) = true
    ∧ addToStructure 3 4 (Entry.dir "node_modules" [Entry.file "x.md"] true) 0 "" = [] :=
  ⟨by decide, c7_hidden_never_rendered.1 3 4 _ 0 "" (by decide)⟩

/-- C8 counterexample: an inaccessible root (a `PermissionError` while
listing it) does not return the no-accessible-files fallback — it
returns the permission-denied marker line, which differs from the
fallback string the claim names. -/
theorem c8_fallback_counterexample :
    getFolderStructure "/repo" Root.denied 3 = Except.ok "🔒 (permission denied)"
    ∧ ("🔒 (permission denied)" : String) ≠ "No accessible files" :=
  ⟨rfl, by decide⟩

/-- C8 amended: a root whose walk yields zero lines returns the fixed
fallback string; an inaccessible root instead returns the
permission-denied marker; and in every non-raising case the renderer's
result is a non-empty string. -/
theorem c8_no_empty_result :
    (∀ repoPath maxDepth children, structureLines maxDepth children = [] →
        getFolderStructure repoPath (Root.ok children) maxDepth =
          Except.ok "No accessible files")
    ∧ (∀ repoPath maxDepth,
        getFolderStructure repoPath Root.denied maxDepth =
          Except.ok "🔒 (permission denied)")
    ∧ (∀ repoPath root maxDepth s,
        getFolderStructure repoPath root maxDepth = Except.ok s → s ≠ "") := by
  refine ⟨?_, fun _ _ => rfl, ?_⟩
  · intro repoPath maxDepth children h
    simp [getFolderStructure, h]
  · intro repoPath root maxDepth s hok
    cases root with
    | missing => simp [getFolderStructure] at hok
    | denied =>
      simp only [getFolderStructure, Except.ok.injEq] at hok
      subst hok
      decide
    | ok children =>
      simp only [getFolderStructure, Except.ok.injEq] at hok
      subst hok
      split
      · decide
      · rename_i hne
        apply joinLines_ne_empty
        · simpa [List.isEmpty_iff] using hne
        · exact structureLines_ne_empty maxDepth children

/-- Witness for C8: an empty-after-pruning root yields the fallback,
and the denied-root marker is itself a non-empty result. -/
theorem c8_no_empty_result_witness :
    (structureLines 3 [Entry.dir ".git" [] true] = []
      ∧ getFolderStructure "/repo" (Root.ok [Entry.dir ".git" [] true]) 3 =
          Except.ok "No accessible files")
    ∧ (getFolderStructure "/repo" Root.denied 3 = Except.ok "🔒 (permission denied)"
      ∧ ("🔒 (permission denied)" : String) ≠ "") :=
  ⟨⟨by decide, c8_no_empty_result.1 "/repo" 3 [Entry.dir ".git" [] true] (by decide)⟩,
   ⟨rfl, c8_no_empty_result.2.2 "/repo" Root.denied 3 "🔒 (permission denied)" rfl⟩⟩

/-- A concrete environment in which every path is missing: `expand` is
the identity, every root listing raises `FileNotFoundError`. -/
def missingEnv : Env :=
  ⟨fun p => p, fun _ => Root.missing, fun _ => FileReadOutcome.notFound,
   "/work", "config/repos.yaml"⟩

/-- A minimal descriptor whose mandatory fields are present. -/
def demoCfg : RepoConfig :=
  ⟨some "demo", some "/missing", none, none, none, none, none, none⟩

set_option maxRecDepth 40000

/-- C1 counterexample: with a descriptor whose resolved path does not
exist, the aggregation raises (`FileNotFoundError` escapes
`_get_folder_structure`, whose `try` only catches `PermissionError`),
so `collect_all` substitutes the inline error block — the document is
header, error block, footer, and the Tree Renderer fallback string
appears nowhere in it. -/
theorem c1_missing_root_counterexample :
    collectRepoFiles missingEnv demoCfg =
      Except.error "[Errno 2] No such file or directory: '/missing'"
    ∧ collect_all missingEnv [demoCfg] =
        headerText missingEnv 1 ++
          errorBlockText demoCfg "[Errno 2] No such file or directory: '/missing'" ++
          footerText
    ∧ containsSub (collect_all missingEnv [demoCfg]) "No accessible files" = false :=
  ⟨rfl, rfl, by decide⟩

/-- C1 amended: a descriptor whose resolved repository path does not
exist makes the Repository Aggregator raise `FileNotFoundError`; the
Collection Orchestrator isolates this into the inline error block for
that descriptor (no normal section and no fallback string), and the
run still completes through to the footer banner. -/
theorem c1_missing_root_error_block (env : Env) (cfg : RepoConfig) (n p : String)
    (hn : cfg.name = some n) (hp : cfg.path = some p)
    (hroot : env.rootAt (env.expand p) = Root.missing) :
    collectRepoFiles env cfg =
      Except.error ("[Errno 2] No such file or directory: '" ++ env.expand p ++ "'")
    ∧ entryText env cfg =
        errorBlockText cfg ("[Errno 2] No such file or directory: '" ++ env.expand p ++ "'")
    ∧ ∀ pre post, ∃ front, collect_all env (pre ++ cfg :: post) = front ++ footerText := by
  have herr : collectRepoFiles env cfg =
      Except.error ("[Errno 2] No such file or directory: '" ++ env.expand p ++ "'") := by
    rw [collectRepoFiles, hn, hp]
    simp [hroot, getFolderStructure]
  refine ⟨herr, ?_, ?_⟩
  · rw [entryText, herr]
  · intro pre post
    exact ⟨_, rfl⟩

/-- Witness for C1 (amended) at the concrete missing-path environment. -/
theorem c1_missing_root_error_block_witness :
    (demoCfg.name = some "demo" ∧ demoCfg.path = some "/missing"
      ∧ missingEnv.rootAt (missingEnv.expand "/missing") = Root.missing)
    ∧ collectRepoFiles missingEnv demoCfg =
        Except.error ("[Errno 2] No such file or directory: '" ++
          missingEnv.expand "/missing" ++ "'") :=
  ⟨⟨rfl, rfl, rfl⟩,
   (c1_missing_root_error_block missingEnv demoCfg "demo" "/missing" rfl rfl rfl).1⟩

/-- C2 counterexample: a descriptor missing the mandatory `path` field
makes `collect` raise (`KeyError: 'path'` escapes its boundary — the
same raise C4 relies on the orchestrator to catch), so the aggregator
is not total over malformed descriptors. -/
theorem c2_missing_path_counterexample :
    collectRepoFiles missingEnv
        ⟨some "demo", none, none, none, none, none, none, none⟩ =
      Except.error "'path'" :=
  rfl

/-- C2 amended: the aggregator returns text without raising for every
descriptor whose mandatory `name` and `path` are present and whose
resolved root listing does not raise `FileNotFoundError`; moreover the
optional fields are genuinely optional — when all of them are absent
the produced section is exactly the identity banner (with the fixed
description placeholder) plus the structure block, with no remotes,
type, integration-quality, documentation or context-files output. -/
theorem c2_collect_total_on_wellformed (env : Env) (cfg : RepoConfig)
    (h : wellFormed env cfg) :
    (∃ s, collectRepoFiles env cfg = Except.ok s)
    ∧ (∀ n p, cfg.name = some n → cfg.path = some p →
        cfg.description = none → cfg.remotes = none → cfg.type = none →
        cfg.integration_quality = none → cfg.documentation = none →
        cfg.context_files = none →
        ∃ t, getFolderStructure (env.expand p) (env.rootAt (env.expand p)) 3 = Except.ok t
          ∧ collectRepoFiles env cfg = Except.ok
              (bannerText n "No description provided" ++
                "## Repository Structure\n\n```\n" ++ t ++ "\n```\n\n")) := by
  refine ⟨collectRepoFiles_ok_of_wellFormed env cfg h, ?_⟩
  intro n p hn hp hdesc hrem htype hiq hdoc hctx
  obtain ⟨n', p', hn', hp', hroot⟩ := h
  rw [hp] at hp'
  cases hp'
  obtain ⟨t, ht⟩ := getFolderStructure_ok_of_not_missing (env.expand p)
    (env.rootAt (env.expand p)) 3 hroot
  refine ⟨t, ht, ?_⟩
  rw [collectRepoFiles, hn, hp]
  simp only [ht, hdesc, Option.getD_none]
  simp [remotesText, typeText, iqText, docsText, contextText,
    hrem, htype, hiq, hdoc, hctx, String.append_assoc]

/-- A concrete environment with one existing, empty repository root. -/
def emptyRepoEnv : Env :=
  ⟨fun p => p,
   fun p => if p == "/repo" then Root.ok [] else Root.missing,
   fun _ => FileReadOutcome.notFound,
   "/work", "config/repos.yaml"⟩

/-- A descriptor with mandatory fields only, pointing at the empty
repository root. -/
def bareCfg : RepoConfig :=
  ⟨some "demo", some "/repo", none, none, none, none, none, none⟩

/-- Witness for C2 (amended) at a concrete well-formed descriptor. -/
theorem c2_collect_total_on_wellformed_witness :
    wellFormed emptyRepoEnv bareCfg
    ∧ (∃ s, collectRepoFiles emptyRepoEnv bareCfg = Except.ok s)
    ∧ (∃ t, getFolderStructure (emptyRepoEnv.expand "/repo")
          (emptyRepoEnv.rootAt (emptyRepoEnv.expand "/repo")) 3 = Except.ok t
        ∧ collectRepoFiles emptyRepoEnv bareCfg = Except.ok
            (bannerText "demo" "No description provided" ++
              "## Repository Structure\n\n```\n" ++ t ++ "\n```\n\n")) :=
  have hwf : wellFormed emptyRepoEnv bareCfg := ⟨"demo", "/repo", rfl, rfl, rfl⟩
  ⟨hwf, (c2_collect_total_on_wellformed emptyRepoEnv bareCfg hwf).1,
   (c2_collect_total_on_wellformed emptyRepoEnv bareCfg hwf).2 "demo" "/repo"
     rfl rfl rfl rfl rfl rfl rfl rfl⟩

/-- C4: over a manifest in which exactly one descriptor lacks the
mandatory `path` (the others being well-formed), the document is the
header followed by exactly one contribution per descriptor in manifest
order — the malformed one's contribution being the inline error block
for `KeyError: 'path'`, each other's being the normal aggregated
section — followed by the footer banner; the run is not aborted. -/
theorem c4_error_isolated (env : Env) (pre post : List RepoConfig) (bad : RepoConfig)
    (bn : String) (hwf : ∀ cfg ∈ pre ++ post, wellFormed env cfg)
    (hbn : bad.name = some bn) (hbp : bad.path = none) :
    collect_all env (pre ++ bad :: post) =
      headerText env (pre.length + 1 + post.length) ++
        strConcat ((pre ++ bad :: post).map (entryText env)) ++ footerText
    ∧ entryText env bad = errorBlockText bad "'path'"
    ∧ (∀ cfg ∈ pre ++ post, ∃ s, collectRepoFiles env cfg = Except.ok s
        ∧ entryText env cfg = s)
    ∧ ((pre ++ bad :: post).map (entryText env)).length = pre.length + 1 + post.length
    ∧ ∃ front, collect_all env (pre ++ bad :: post) = front ++ footerText := by
  have hlen : (pre ++ bad :: post).length = pre.length + 1 + post.length := by
    simp [List.length_append]
    omega
  refine ⟨?_, ?_, ?_, ?_, ?_⟩
  · rw [collect_all_eq, hlen]
  · rw [entryText, collectRepoFiles, hbn, hbp]
  · intro cfg hc
    obtain ⟨s, hs⟩ := collectRepoFiles_ok_of_wellFormed env cfg (hwf cfg hc)
    exact ⟨s, hs, by rw [entryText, hs]⟩
  · rw [List.length_map, hlen]
  · rw [collect_all]
    exact ⟨_, rfl⟩

/-- An environment for the C4 witness: `/a` exists (and is empty),
everything else is missing. -/
def c4Env : Env :=
  ⟨fun p => p,
   fun p => if p == "/a" then Root.ok [] else Root.missing,
   fun _ => FileReadOutcome.notFound,
   "/work", "config/repos.yaml"⟩

/-- The well-formed descriptor of the C4 witness manifest. -/
def alphaCfg : RepoConfig :=
  ⟨some "alpha", some "/a", none, none, none, none, none, none⟩

/-- The malformed descriptor of the C4 witness manifest: `path` absent. -/
def betaCfg : RepoConfig :=
  ⟨some "beta", none, none, none, none, none, none, none⟩

/-- Witness for C4 at a concrete two-descriptor manifest whose second
entry lacks `path`. -/
theorem c4_error_isolated_witness :
    (∀ cfg ∈ [alphaCfg] ++ ([] : List RepoConfig), wellFormed c4Env cfg)
    ∧ (collect_all c4Env ([alphaCfg] ++ betaCfg :: []) =
        headerText c4Env ([alphaCfg].length + 1 + ([] : List RepoConfig).length) ++
          strConcat (([alphaCfg] ++ betaCfg :: []).map (entryText c4Env)) ++ footerText
      ∧ entryText c4Env betaCfg = errorBlockText betaCfg "'path'"
      ∧ (∀ cfg ∈ [alphaCfg] ++ ([] : List RepoConfig),
          ∃ s, collectRepoFiles c4Env cfg = Except.ok s ∧ entryText c4Env cfg = s)
      ∧ (([alphaCfg] ++ betaCfg :: []).map (entryText c4Env)).length =
          [alphaCfg].length + 1 + ([] : List RepoConfig).length
      ∧ ∃ front, collect_all c4Env ([alphaCfg] ++ betaCfg :: []) = front ++ footerText) :=
  have hwf : ∀ cfg ∈ [alphaCfg] ++ ([] : List RepoConfig), wellFormed c4Env cfg := by
    intro cfg hc
    simp only [List.append_nil, List.mem_singleton] at hc
    subst hc
    exact ⟨"alpha", "/a", rfl, rfl, rfl⟩
  ⟨hwf, c4_error_isolated c4Env [alphaCfg] [] betaCfg "beta" hwf rfl rfl⟩

/-- C10: for every context-file group, a category other than the
literal `code`/`tests` always emits its title-cased subheading — the
subheading precedes any filtering or reading, so it appears even when
every listed file is rejected or unreadable — while `code` and `tests`
contribute nothing at all; and the subheading does appear inside the
aggregated section of any descriptor carrying such a group. -/
theorem c10_subheading_before_filtering :
    (∀ env repoPath cat files, cat ≠ "code" → cat ≠ "tests" →
      ∃ rest, contextPairText env repoPath (cat, files) =
        "### " ++ pyTitle cat ++ "\n\n" ++ rest)
    ∧ (∀ env repoPath files,
        contextPairText env repoPath ("code", files) = ""
        ∧ contextPairText env repoPath ("tests", files) = "")
    ∧ (∀ env cfg m sec cat files,
        cfg.context_files = some m → collectRepoFiles env cfg = Except.ok sec →
        (cat, files) ∈ m → cat ≠ "code" → cat ≠ "tests" →
        ∃ a b, sec = a ++ ("### " ++ pyTitle cat ++ "\n\n") ++ b) := by
  have hpair : ∀ env repoPath cat files, cat ≠ "code" → cat ≠ "tests" →
      ∃ rest, contextPairText env repoPath (cat, files) =
        "### " ++ pyTitle cat ++ "\n\n" ++ rest := by
    intro env repoPath cat files h1 h2
    refine ⟨strConcat (files.map (contextFileText env repoPath cat)), ?_⟩
    rw [contextPairText]
    simp only [beq_eq_false_iff_ne, ne_eq]
    rw [if_neg (by simp [h1, h2]), String.append_assoc]
  refine ⟨hpair, ?_, ?_⟩
  · intro env repoPath files
    constructor <;> rfl
  · intro env cfg m sec cat files hctx hok hmem h1 h2
    cases hn : cfg.name with
    | none =>
      rw [collectRepoFiles, hn] at hok
      exact Except.noConfusion hok
    | some n =>
      cases hp : cfg.path with
      | none =>
        rw [collectRepoFiles, hn, hp] at hok
        exact Except.noConfusion hok
      | some p =>
        rw [collectRepoFiles, hn, hp] at hok
        cases hg : getFolderStructure (env.expand p) (env.rootAt (env.expand p)) 3 with
        | error e =>
          simp only [hg] at hok
          exact Except.noConfusion hok
        | ok t =>
          simp only [hg, Except.ok.injEq] at hok
          obtain ⟨a', b', hsplit⟩ :=
            strConcat_mem_split (contextPairText env (env.expand p)) hmem
          obtain ⟨rest, hrest⟩ := hpair env (env.expand p) cat files h1 h2
          refine ⟨bannerText n (cfg.description.getD "No description provided") ++
              remotesText cfg ++ typeText cfg ++ iqText cfg ++
              "## Repository Structure\n\n```\n" ++ t ++ "\n```\n\n" ++
              docsText env (env.expand p) cfg ++
              "## Key Configuration Files\n\n" ++ a',
            rest ++ b', ?_⟩
          rw [← hok, contextText, hctx]
          simp only [hsplit, hrest, String.append_assoc]

/-- An environment whose `/repo` root exists, is empty, and has no
readable files. -/
def c10Env : Env :=
  ⟨fun p => p,
   fun p => if p == "/repo" then Root.ok [] else Root.missing,
   fun _ => FileReadOutcome.notFound,
   "/work", "config/repos.yaml"⟩

/-- Witness for C10: the `config` group of a concrete descriptor keeps
its subheading even though its only listed file is excluded by the
Inclusion Policy, and a `code` group contributes nothing. -/
theorem c10_subheading_before_filtering_witness :
    ("config" ≠ "code" ∧ "config" ≠ "tests")
    ∧ (∃ rest, contextPairText c10Env "/repo" ("config", ["main.py"]) =
        "### " ++ pyTitle "config" ++ "\n\n" ++ rest)
    ∧ contextPairText c10Env "/repo" ("code", ["main.py"]) = "" :=
  ⟨⟨by decide, by decide⟩,
   c10_subheading_before_filtering.1 c10Env "/repo" "config" ["main.py"]
     (by decide) (by decide),
   (c10_subheading_before_filtering.2.1 c10Env "/repo" ["main.py"]).1⟩

end Panorama
